import Mathlib

/-!
Shallow embedding of the comic_scraper_api repository (src/comic_scraper.py,
src/services/cloudinary_service.py, src/models/comic.py) for checking the
natural-language specification against the code.

External effects (HTTP GET of pages and images, the Cloudinary prefix query
and upload, the markup extraction collaborator, and the sampled rate-limit
delay) are modelled as oracle functions collected in an `Env`; each embedded
operation returns its result together with the list of observable events
(network requests, sleeps, existence checks) it performs, in order.
-/

namespace ComicScraper

/-- Constant MAX_CONCURRENT_DOWNLOADS from comic_scraper.py. -/
def MAX_CONCURRENT_DOWNLOADS : Nat := 3

/-- Constant MAX_RETRIES from comic_scraper.py. -/
def MAX_RETRIES : Nat := 3

/-- Constant RETRY_DELAY from comic_scraper.py (seconds). -/
def RETRY_DELAY : Nat := 2

/-- Observable events of a run, in program order: existence checks against the
asset store, page GETs, image GETs, uploads, and sleeps (retry back-off,
Retry-After waits, and the rate-limiter delay). -/
inductive Event
  | folderCheck (path : String)
  | fileCheck (path : String)
  | pageGet (url : String)
  | imgGet (url : String)
  | upload (folder filename : String)
  | sleep (secs : Nat)
  | rateSleep (secs : Nat)
deriving DecidableEq

/-- An event that is a network request for chapter content: a chapter-page
fetch, an image download, or an upload. -/
def isNetworkEvent : Event → Bool
  | Event.pageGet _ => true
  | Event.imgGet _ => true
  | Event.upload _ _ => true
  | _ => false

/-- Predicate selecting page-fetch events. -/
def isPageGet : Event → Bool
  | Event.pageGet _ => true
  | _ => false

/-- Predicate selecting image-download request events. -/
def isImgGet : Event → Bool
  | Event.imgGet _ => true
  | _ => false

/-- Predicate selecting upload events. -/
def isUploadEvent : Event → Bool
  | Event.upload _ _ => true
  | _ => false

/-- Outcome of one HTTP GET of an image URL, as seen by download_image:
an HTTP 429 with an optional Retry-After header value, an
aiohttp.ClientError (including non-2xx raised by raise_for_status), or a
2xx response with a body. -/
inductive ImgResp
  | tooManyRequests (retryAfter : Option Nat)
  | clientError (msg : String)
  | ok (content : String)
deriving DecidableEq

/-- Oracle for all external effects. `resourcesNonempty p` models the
Cloudinary `api.resources(type="upload", prefix=p, max_results=1)` query
reporting at least one resource; `httpGet url attempt` is the outcome of the
attempt-th GET of a page URL; `imgResp url attempt` likewise for image URLs;
`cloudUpload folder filename` is the `secure_url` of a successful
`uploader.upload` (none on failure); `imagesInPage html` is the markup
extraction collaborator producing the image src list of a chapter page;
`rateDelay url` is the sampled `random.uniform(min_delay, max_delay)` delay
of the rate_limited decorator. -/
structure Env where
  resourcesNonempty : String → Bool
  httpGet : String → Nat → Except String String
  imgResp : String → Nat → ImgResp
  cloudUpload : String → String → Option String
  imagesInPage : String → List String
  rateDelay : String → Nat

/-- folder_exists from cloudinary_service.py: a prefix query with
max_results=1 on the folder path. -/
def folder_exists (env : Env) (folder_path : String) : Bool :=
  env.resourcesNonempty folder_path

/-- file_exists from cloudinary_service.py: the same prefix query on
folder/filename. -/
def file_exists (env : Env) (folder filename : String) : Bool :=
  env.resourcesNonempty (folder ++ "/" ++ filename)

/-- upload_image from cloudinary_service.py: uploads under a folder with a
stable public_id and returns the result's secure_url, or none when the upload
raised (the error is printed, not re-raised). -/
def upload_image (env : Env) (folder filename : String) : Option String :=
  env.cloudUpload folder filename

/-- Result of download_image: the returned secure_url, the empty-string
return after a failed upload, a raised aiohttp.ClientError after the last
attempt, the raised ValueError when neither chapter nor is_cover is given,
or the implicit None return when the attempt loop is exhausted by 429
responses. -/
inductive DLResult
  | success (secure_url : String)
  | uploadFailed
  | clientRaise (msg : String)
  | badArgs
  | exhausted
deriving DecidableEq

/-- The image filename derived in download_image:
url.split('/')[-1].split('.')[0]. -/
def imageFilename (url : String) : String :=
  (((url.splitOn ("/")).getLastD ("")).splitOn (".")).headD ("")

/-- The chapter asset folder f-string used by scrape_chapter_images and
download_image: comic_slug/chapter-{chapter}. -/
def chapter_folder (comic_slug chapter : String) : String :=
  comic_slug ++ "/chapter-" ++ chapter

/-- The folder/filename pair chosen inside download_image's success branch;
none models the raised ValueError when neither chapter nor is_cover is
given. -/
def downloadTarget (url comic_slug : String) (chapter : Option String) (is_cover : Bool) :
    Option (String × String) :=
  if is_cover then some (comic_slug, "cover")
  else
    match chapter with
    | some ch => some (chapter_folder comic_slug ch, imageFilename url)
    | none => none

/-- The attempt loop of download_image (comic_scraper.py lines 83-114),
indexed by the current attempt number and the remaining iterations of
`for attempt in range(retries)`. A 429 sleeps for the Retry-After value
(60 when absent) and `continue`s, which advances the same loop; a
ClientError on the last attempt re-raises, otherwise sleeps 2^attempt; a
2xx body is uploaded and the loop returns. -/
def downloadGo (env : Env) (url comic_slug : String) (chapter : Option String)
    (is_cover : Bool) (attempt : Nat) : Nat → DLResult × List Event
  | 0 => (DLResult.exhausted, [])
  | remaining + 1 =>
    match env.imgResp url attempt with
    | ImgResp.tooManyRequests ra =>
      let wait_time := ra.getD 60
      let r := downloadGo env url comic_slug chapter is_cover (attempt + 1) remaining
      (r.1, Event.imgGet url :: Event.sleep wait_time :: r.2)
    | ImgResp.clientError msg =>
      if remaining = 0 then (DLResult.clientRaise msg, [Event.imgGet url])
      else
        let r := downloadGo env url comic_slug chapter is_cover (attempt + 1) remaining
        (r.1, Event.imgGet url :: Event.sleep (2 ^ attempt) :: r.2)
    | ImgResp.ok _ =>
      match downloadTarget url comic_slug chapter is_cover with
      | none => (DLResult.badArgs, [Event.imgGet url])
      | some (folder, filename) =>
        match upload_image env folder filename with
        | some u => (DLResult.success u, [Event.imgGet url, Event.upload folder filename])
        | none => (DLResult.uploadFailed, [Event.imgGet url, Event.upload folder filename])

/-- download_image from comic_scraper.py: the rate_limited decorator sleeps
the sampled uniform delay first, then the attempt loop runs. -/
def download_image (env : Env) (url comic_slug : String) (chapter : Option String)
    (is_cover : Bool) (retries : Nat) : DLResult × List Event :=
  let r := downloadGo env url comic_slug chapter is_cover 0 retries
  (r.1, Event.rateSleep (env.rateDelay url) :: r.2)

/-- fetch_data from comic_scraper.py: a single requests.get with
raise_for_status, no retry; the error propagates to the caller. -/
def fetch_data (env : Env) (url : String) : Except String String × List Event :=
  (env.httpGet url 0, [Event.pageGet url])

/-- Result of fetch_data_with_retry: the page text, the exception re-raised
after the final attempt, or the implicit None return when max_retries is 0
and the loop body never runs. -/
inductive FetchResult
  | success (body : String)
  | raised (msg : String)
  | fellThrough
deriving DecidableEq

/-- The attempt loop of fetch_data_with_retry (comic_scraper.py lines 41-54):
on failure, the last attempt re-raises, earlier attempts sleep
RETRY_DELAY * 2^attempt and retry. -/
def fetchRetryGo (env : Env) (url : String) (attempt : Nat) : Nat → FetchResult × List Event
  | 0 => (FetchResult.fellThrough, [])
  | remaining + 1 =>
    match env.httpGet url attempt with
    | Except.ok body => (FetchResult.success body, [Event.pageGet url])
    | Except.error msg =>
      if remaining = 0 then (FetchResult.raised msg, [Event.pageGet url])
      else
        let wait_time := RETRY_DELAY * 2 ^ attempt
        let r := fetchRetryGo env url (attempt + 1) remaining
        (r.1, Event.pageGet url :: Event.sleep wait_time :: r.2)

/-- fetch_data_with_retry from comic_scraper.py. -/
def fetch_data_with_retry (env : Env) (url : String) (max_retries : Nat) :
    FetchResult × List Event :=
  fetchRetryGo env url 0 max_retries

/-- Matches a literal pattern against the head of a character list, returning
the remainder on success (the list-level engine for the literal parts of the
regular expressions used in comic_scraper.py). -/
def stripLit : List Char → List Char → Option (List Char)
  | [], cs => some cs
  | _ :: _, [] => none
  | p :: ps, c :: cs => if c = p then stripLit ps cs else none

/-- Greedy \d+ matching: the maximal run of leading digits and the rest. -/
def takeDigits : List Char → List Char × List Char
  | [] => ([], [])
  | c :: cs =>
    if c.isDigit then
      let p := takeDigits cs
      (c :: p.1, p.2)
    else ([], c :: cs)

/-- One position of re.search for a pattern `lit(\d+)`: the literal followed
by at least one digit; returns the greedy digit group. -/
def matchLitDigitsAt (lit cs : List Char) : Option (List Char) :=
  match stripLit lit cs with
  | none => none
  | some rest =>
    let ds := (takeDigits rest).1
    if ds.isEmpty then none else some ds

/-- re.search for `lit(\d+)`: tries each start position left to right. -/
def searchLitDigits (lit : List Char) : List Char → Option (List Char)
  | [] => none
  | c :: cs =>
    match matchLitDigitsAt lit (c :: cs) with
    | some ds => some ds
    | none => searchLitDigits lit cs

/-- The literal part of the chapter-URL pattern re.search(r'chapter-(\d+)', url)
in scrape_chapter_images. -/
def chapterUrlLit : List Char := "chapter-".data

/-- The digit group of re.search(r'chapter-(\d+)', url) in
scrape_chapter_images, as a string. -/
def extractChapterNum (url : String) : Option String :=
  (searchLitDigits chapterUrlLit url.data).map fun ds => String.mk ds

/-- The per-image loop of scrape_chapter_images (comic_scraper.py lines
230-234): images are downloaded sequentially; a truthy secure_url is
collected; a falsy one (None after 429 exhaustion, or "" after a failed
upload) is skipped and the loop continues; a raised exception aborts the
chapter, is caught at the pipeline boundary and yields []. -/
def scrapeImagesGo (env : Env) (comic_slug ch : String) : List String → List String × List Event
  | [] => ([], [])
  | img_url :: rest =>
    let d := download_image env img_url comic_slug (some ch) false 3
    match d.1 with
    | DLResult.clientRaise _ => ([], d.2)
    | DLResult.badArgs => ([], d.2)
    | DLResult.success cu =>
      let r := scrapeImagesGo env comic_slug ch rest
      if cu = "" then (r.1, d.2 ++ r.2) else (cu :: r.1, d.2 ++ r.2)
    | DLResult.uploadFailed =>
      let r := scrapeImagesGo env comic_slug ch rest
      (r.1, d.2 ++ r.2)
    | DLResult.exhausted =>
      let r := scrapeImagesGo env comic_slug ch rest
      (r.1, d.2 ++ r.2)

/-- scrape_chapter_images from comic_scraper.py: extract the chapter number
from the URL (a failure raises ValueError, caught at the boundary, result
[]), check the asset folder and skip without any network request when it is
non-empty, otherwise fetch the chapter page once with fetch_data (an error is
caught at the boundary, result []), extract the image list (markup
collaborator) and run the sequential download loop. -/
def scrape_chapter_images (env : Env) (url comic_slug : String) : List String × List Event :=
  match extractChapterNum url with
  | none => ([], [])
  | some ch =>
    let folder := chapter_folder comic_slug ch
    if folder_exists env folder then ([], [Event.folderCheck folder])
    else
      match fetch_data env url with
      | (Except.error _, evs) => ([], Event.folderCheck folder :: evs)
      | (Except.ok html, evs) =>
        let images := env.imagesInPage html
        let r := scrapeImagesGo env comic_slug ch images
        (r.1, Event.folderCheck folder :: evs ++ r.2)

/-- Result of handle_cover_image: the returned Optional cloudinary URL, or a
propagated exception (download_image re-raising a ClientError or ValueError
is not caught inside handle_cover_image). -/
inductive CoverResult
  | ok (url : Option String)
  | raised
deriving DecidableEq

/-- handle_cover_image from comic_scraper.py: short-circuits on
file_exists(comic_slug, 'cover'), otherwise downloads and publishes the
cover; a falsy secure_url yields None. -/
def handle_cover_image (env : Env) (cover_image_url comic_slug : String) :
    CoverResult × List Event :=
  let checkEv := Event.fileCheck (comic_slug ++ "/cover")
  if file_exists env comic_slug ("cover") then (CoverResult.ok none, [checkEv])
  else
    let d := download_image env cover_image_url comic_slug none true 3
    match d.1 with
    | DLResult.success cu =>
      if cu = "" then (CoverResult.ok none, checkEv :: d.2)
      else (CoverResult.ok (some cu), checkEv :: d.2)
    | DLResult.uploadFailed => (CoverResult.ok none, checkEv :: d.2)
    | DLResult.exhausted => (CoverResult.ok none, checkEv :: d.2)
    | DLResult.clientRaise _ => (CoverResult.raised, checkEv :: d.2)
    | DLResult.badArgs => (CoverResult.raised, checkEv :: d.2)

/-- A chapter entry produced by get_chapter_list: the parsed number and the
link href. The Python float of the decimal literal is modelled as the exact
rational value of the matched decimal string. -/
structure Chapter where
  number : Rat
  url : String
deriving DecidableEq

/-- One position of re.search(r'Chapter (\d+(\.\d+)?)', text): the literal,
a greedy integer digit run, and an optional fractional part that matches only
when a dot is directly followed by at least one digit. Returns the integer
and fractional digit groups. -/
def matchChapterAt (cs : List Char) : Option (List Char × List Char) :=
  match stripLit ("Chapter ".data) cs with
  | none => none
  | some rest =>
    let ip := takeDigits rest
    if ip.1.isEmpty then none
    else
      match ip.2 with
      | '.' :: rest2 =>
        let fp := takeDigits rest2
        if fp.1.isEmpty then some (ip.1, []) else some (ip.1, fp.1)
      | _ => some (ip.1, [])

/-- re.search(r'Chapter (\d+(\.\d+)?)', text): leftmost match. -/
def searchChapter : List Char → Option (List Char × List Char)
  | [] => none
  | c :: cs =>
    match matchChapterAt (c :: cs) with
    | some r => some r
    | none => searchChapter cs

/-- Numeric value of an ASCII digit character. -/
def digitVal (c : Char) : Nat := c.toNat - 48

/-- Value of a digit run read left to right. -/
def natFromDigits (ds : List Char) : Nat :=
  ds.foldl (fun a c => 10 * a + digitVal c) 0

/-- Value of float(match.group(1)) for an integer digit group and a (possibly
empty) fractional digit group, as an exact rational: the decimal value
N.M = (N * 10^k + M) / 10^k with k fractional digits. -/
def chapterVal (ip fp : List Char) : Rat :=
  mkRat (natFromDigits ip * 10 ^ fp.length + natFromDigits fp) (10 ^ fp.length)

/-- float(match.group(1)) of the chapter-link text, when the text matches. -/
def chapterNumber (text : String) : Option Rat :=
  (searchChapter text.data).map fun r => chapterVal r.1 r.2

/-- A chapter link as produced by the markup collaborator: the normalized
link text (item.text.strip().replace of newlines is part of the collaborator
output here) and the href. -/
structure ChapterLink where
  text : String
  href : String
deriving DecidableEq

/-- The comparator of Python sorted(chapters, key=lambda x: x['number']). -/
def leChap (a b : Chapter) : Bool := decide (a.number ≤ b.number)

/-- get_chapter_list from comic_scraper.py: links whose text matches the
pattern yield a chapter with the parsed float and the href; the rest are
omitted; the result is the stable numeric sort ascending by number (Python
sorted with key=number). -/
def get_chapter_list (links : List ChapterLink) : List Chapter :=
  List.mergeSort
    (links.filterMap fun l => (chapterNumber l.text).map fun q => Chapter.mk q l.href)
    leChap

/-- Fractional decimal digits of num/den (with 0 ≤ num < den), by repeated
multiplication by 10, stopping at remainder 0; the fuel den bounds the digit
count of any terminating decimal. -/
def fracDigitsGo (den : Nat) : Nat → Nat → List Char
  | _, 0 => []
  | num, fuel + 1 =>
    if num = 0 then []
    else Char.ofNat (48 + num * 10 / den) :: fracDigitsGo den (num * 10 % den) fuel

/-- Models the Python str() of a float holding an exact decimal value: the
integer part, a dot, and the terminating fractional digits, with ".0" when
the value is integral (str(2.0) = "2.0"). This is the text interpolated by
main's f-string f"{title}/chapter-{chapter['number']}". -/
def pyFloatStr (q : Rat) : String :=
  let ip : Int := q.num / (q.den : Int)
  let fracNum : Int := q.num % (q.den : Int)
  if fracNum = 0 then toString ip ++ ".0"
  else toString ip ++ "." ++ String.mk (fracDigitsGo q.den fracNum.toNat q.den)

/-- The folder key checked by main's already-downloaded filter
(comic_scraper.py line 318): built from the parsed float number. -/
def mainFolderKey (title : String) (number : Rat) : String :=
  title ++ "/chapter-" ++ pyFloatStr number

/-- The starting-chapter filter of main (comic_scraper.py lines 312-313):
`not start_chapter or ch['number'] >= start_chapter`, where None and 0.0 are
falsy. -/
def startFilter (start_chapter : Option Rat) (chapters : List Chapter) : List Chapter :=
  chapters.filter fun ch =>
    match start_chapter with
    | none => true
    | some s => decide (s = 0) || decide (s ≤ ch.number)

/-- The second filter of main (comic_scraper.py lines 316-319): drop chapters
whose float-keyed asset folder already exists. -/
def excludeExisting (env : Env) (title : String) (chapters : List Chapter) : List Chapter :=
  chapters.filter fun chapter => !(folder_exists env (mainFolderKey title chapter.number))

/-- The dispatch set of main: the start filter followed by the
already-downloaded filter. -/
def chaptersToScrape (env : Env) (title : String) (start_chapter : Option Rat)
    (chapters : List Chapter) : List Chapter :=
  excludeExisting env title (startFilter start_chapter chapters)

/-- The comic metadata dict passed to save_comic_metadata. -/
structure ComicMeta where
  title : String
  author : String
  type : String
  status : String
  release : String
  genres : List String
  synopsis : String
  rating : String
  cover_image_url : String
deriving DecidableEq

/-- A row of the comics table (src/models/comic.py), without the surrogate
id column; updated_on is an abstract timestamp. -/
structure ComicRec where
  title : String
  author : String
  type : String
  status : String
  release : String
  genres : List String
  synopsis : String
  rating : String
  cover_image_url : String
  slug : String
  updated_on : Nat
deriving DecidableEq

/-- The new Comic row built by save_comic_metadata when the slug is absent. -/
def newComicRec (meta : ComicMeta) (comic_slug : String) (now : Nat) : ComicRec :=
  ⟨meta.title, meta.author, meta.type, meta.status, meta.release, meta.genres,
   meta.synopsis, meta.rating, meta.cover_image_url, comic_slug, now⟩

/-- Refreshes updated_on on the first row with the given slug (the row
returned by .filter(Comic.slug == comic_slug).first()), leaving every other
column and row unchanged. -/
def touchFirst (comic_slug : String) (now : Nat) : List ComicRec → List ComicRec
  | [] => []
  | c :: cs =>
    if c.slug = comic_slug then
      ⟨c.title, c.author, c.type, c.status, c.release, c.genres, c.synopsis,
       c.rating, c.cover_image_url, c.slug, now⟩ :: cs
    else c :: touchFirst comic_slug now cs

/-- save_comic_metadata from comic_scraper.py, on the success path: the table
is a row list; if no row has the slug, a fully populated new row is inserted;
otherwise only the matched row's updated_on is set to now. -/
def save_comic_metadata (comic_meta : ComicMeta) (comic_slug : String) (now : Nat)
    (db : List ComicRec) : List ComicRec :=
  match db.find? (fun c => c.slug = comic_slug) with
  | none => db ++ [newComicRec comic_meta comic_slug now]
  | some _ => touchFirst comic_slug now db

/-- Phase of one chapter pipeline task under the semaphore of main: waiting
to enter `async with semaphore`, running inside it with a count of pending
network operations, or finished (the slot released on completion or
failure). -/
inductive TPhase
  | waiting (nets : Nat)
  | running (nets : Nat)
  | done
deriving DecidableEq

/-- True on tasks currently holding a semaphore slot. -/
def isRunning : TPhase → Bool
  | TPhase.running _ => true
  | _ => false

/-- State of the scheduler: the task list and the semaphore's available-slot
count. -/
structure Sched where
  tasks : List TPhase
  avail : Nat
deriving DecidableEq

/-- Number of chapter pipelines currently in flight (holding a slot). -/
def holders (s : Sched) : Nat := s.tasks.countP isRunning

/-- Interleaving semantics of download_with_progress under
asyncio.Semaphore(MAX_CONCURRENT_DOWNLOADS): a waiting task may acquire only
when a slot is available and holds it before any of its network operations;
a running task performs one network operation at a time; releasing (on
completion or on the caught failure) returns the slot. -/
inductive SchedStep : Sched → Sched → Prop
  | acquire (pre post : List TPhase) (n a : Nat) :
      SchedStep ⟨pre ++ TPhase.waiting n :: post, a + 1⟩ ⟨pre ++ TPhase.running n :: post, a⟩
  | net (pre post : List TPhase) (n a : Nat) :
      SchedStep ⟨pre ++ TPhase.running (n + 1) :: post, a⟩ ⟨pre ++ TPhase.running n :: post, a⟩
  | release (pre post : List TPhase) (n a : Nat) :
      SchedStep ⟨pre ++ TPhase.running n :: post, a⟩ ⟨pre ++ TPhase.done :: post, a + 1⟩

/-- Reachability by any interleaving of scheduler steps. -/
inductive SchedReach (s0 : Sched) : Sched → Prop
  | refl : SchedReach s0 s0
  | tail {s1 s2 : Sched} : SchedReach s0 s1 → SchedStep s1 s2 → SchedReach s0 s2

/-- Initial scheduler state of main: one waiting task per dispatched chapter
(nets counts its network operations) and a full semaphore. -/
def initSched (nets : List Nat) : Sched :=
  ⟨nets.map TPhase.waiting, MAX_CONCURRENT_DOWNLOADS⟩

/-! Theorems. -/

lemma fetchRetryGo_pageGets_le (env : Env) (url : String) :
    ∀ (r a : Nat), ((fetchRetryGo env url a r).2.countP isPageGet) ≤ r := by
  intro r
  induction r with
  | zero => intro a; simp [fetchRetryGo]
  | succ n ih =>
    intro a
    rcases h : env.httpGet url a with msg | body
    · by_cases hn : n = 0
      · subst hn
        have h2 : fetchRetryGo env url a 1 = (FetchResult.raised msg, [Event.pageGet url]) := by
          simp [fetchRetryGo, h]
        rw [h2]
        simp [List.countP_cons, isPageGet]
      · have := ih (a + 1)
        simp [fetchRetryGo, h, hn, List.countP_cons, isPageGet]
        omega
    · have h2 : fetchRetryGo env url a (n + 1) = (FetchResult.success body, [Event.pageGet url]) := by
        simp [fetchRetryGo, h]
      rw [h2]
      simp [List.countP_cons, isPageGet]

/-- Claim C4: fetch_data_with_retry makes at most max_retries attempts; with
failures on attempts 0 and 1, a success on attempt 2 is returned after sleeps
of RETRY_DELAY * 2^0 then RETRY_DELAY * 2^1 seconds, and a failure on attempt
2 re-raises that final error. -/
theorem fetch_data_with_retry_spec (env : Env) (url e0 e1 : String)
    (h0 : env.httpGet url 0 = Except.error e0)
    (h1 : env.httpGet url 1 = Except.error e1) :
    (∀ x, env.httpGet url 2 = Except.ok x →
       fetch_data_with_retry env url MAX_RETRIES =
         (FetchResult.success x,
          [Event.pageGet url, Event.sleep (RETRY_DELAY * 2 ^ 0),
           Event.pageGet url, Event.sleep (RETRY_DELAY * 2 ^ 1), Event.pageGet url]))
  ∧ (∀ e2, env.httpGet url 2 = Except.error e2 →
       fetch_data_with_retry env url MAX_RETRIES =
         (FetchResult.raised e2,
          [Event.pageGet url, Event.sleep (RETRY_DELAY * 2 ^ 0),
           Event.pageGet url, Event.sleep (RETRY_DELAY * 2 ^ 1), Event.pageGet url]))
  ∧ (∀ n, ((fetch_data_with_retry env url n).2.countP isPageGet) ≤ n) := by
  refine ⟨?_, ?_, ?_⟩
  · intro x h2
    simp [fetch_data_with_retry, MAX_RETRIES, fetchRetryGo, h0, h1, h2, RETRY_DELAY]
  · intro e2 h2
    simp [fetch_data_with_retry, MAX_RETRIES, fetchRetryGo, h0, h1, h2, RETRY_DELAY]
  · intro n
    exact fetchRetryGo_pageGets_le env url n 0

/-- Environment for the C4 witness: the page fetch fails twice, then
succeeds. -/
def envTwoFail : Env :=
  ⟨fun _ => false,
   fun _ a => if a ≤ 1 then Except.error ("boom") else Except.ok ("html"),
   fun _ _ => ImgResp.ok ("x"), fun _ _ => none, fun _ => [], fun _ => 2⟩

/-- Witness for C4 at a concrete environment. -/
theorem fetch_data_with_retry_spec_witness :
    fetch_data_with_retry envTwoFail ("u") MAX_RETRIES =
      (FetchResult.success ("html"),
       [Event.pageGet ("u"), Event.sleep (RETRY_DELAY * 2 ^ 0),
        Event.pageGet ("u"), Event.sleep (RETRY_DELAY * 2 ^ 1), Event.pageGet ("u")]) :=
  (fetch_data_with_retry_spec envTwoFail ("u") ("boom") ("boom")
    (by rfl) (by rfl)).1 ("html") (by rfl)

/-- Claim C1: when the chapter folder's prefix query reports non-empty, the
pipeline performs only that existence check and returns the skip result:
no page fetch, no image download, no upload. -/
theorem skip_before_fetch_no_network (env : Env) (url comic_slug ch : String)
    (hm : extractChapterNum url = some ch)
    (hf : folder_exists env (chapter_folder comic_slug ch) = true) :
    scrape_chapter_images env url comic_slug =
      ([], [Event.folderCheck (chapter_folder comic_slug ch)])
  ∧ (scrape_chapter_images env url comic_slug).2.countP isNetworkEvent = 0 := by
  have h1 : scrape_chapter_images env url comic_slug =
      ([], [Event.folderCheck (chapter_folder comic_slug ch)]) := by
    simp [scrape_chapter_images, hm, hf]
  refine ⟨h1, ?_⟩
  rw [h1]
  simp [List.countP_cons, isNetworkEvent]

/-- Environment for the C1 witness: every asset-store prefix reports
non-empty; any network request would fail loudly. -/
def envSkip : Env :=
  ⟨fun _ => true, fun _ _ => Except.error ("down"),
   fun _ _ => ImgResp.clientError ("down"), fun _ _ => none, fun _ => [], fun _ => 2⟩

/-- Witness for C1 at a concrete environment and URL. -/
theorem skip_before_fetch_no_network_witness :
    scrape_chapter_images envSkip ("komik/x/chapter-2") ("slug") =
      ([], [Event.folderCheck (chapter_folder ("slug") ("2"))])
  ∧ (scrape_chapter_images envSkip ("komik/x/chapter-2") ("slug")).2.countP isNetworkEvent = 0 :=
  skip_before_fetch_no_network envSkip ("komik/x/chapter-2") ("slug") ("2")
    (by decide) (by decide)

/-- Environment refuting C2: every image GET yields HTTP 429 with
Retry-After 5. -/
def envAll429 : Env :=
  ⟨fun _ => false, fun _ _ => Except.error ("e"),
   fun _ _ => ImgResp.tooManyRequests (some 5), fun _ _ => none, fun _ => [], fun _ => 3⟩

/-- Claim C2 counterexample: under consecutive 429 responses download_image
issues exactly 3 requests and then returns None (exhausted) with no further
re-attempt — each 429 consumes one of the 3 loop attempts, so the claim that
for every k of consecutive 429s the request is still re-attempted afterwards
fails at k = 3. -/
theorem download_429_counterexample :
    download_image envAll429 ("http://img/1.jpg") ("slug") (some ("2")) false 3 =
      (DLResult.exhausted,
       [Event.rateSleep 3, Event.imgGet ("http://img/1.jpg"), Event.sleep 5,
        Event.imgGet ("http://img/1.jpg"), Event.sleep 5,
        Event.imgGet ("http://img/1.jpg"), Event.sleep 5])
  ∧ (download_image envAll429 ("http://img/1.jpg") ("slug") (some ("2")) false 3).2.countP
      isImgGet = 3 := by
  refine ⟨by decide, by decide⟩

/-- Claim C2 (amended): on an HTTP 429, download_image sleeps for the
Retry-After value (60 when the header is absent) and re-attempts the same
request, but the re-attempt consumes an iteration of the same 3-attempt
loop: a 429 followed by a success performs exactly one re-attempt, and 3
consecutive 429s exhaust the loop and the call returns None with no further
attempt. -/
theorem download_429_amended (env : Env) (url comic_slug ch : String) (ra0 : Option Nat) :
    (∀ content u, env.imgResp url 0 = ImgResp.tooManyRequests ra0 →
       env.imgResp url 1 = ImgResp.ok content →
       upload_image env (chapter_folder comic_slug ch) (imageFilename url) = some u →
       download_image env url comic_slug (some ch) false 3 =
         (DLResult.success u,
          [Event.rateSleep (env.rateDelay url), Event.imgGet url, Event.sleep (ra0.getD 60),
           Event.imgGet url,
           Event.upload (chapter_folder comic_slug ch) (imageFilename url)]))
  ∧ (∀ ra1 ra2, env.imgResp url 0 = ImgResp.tooManyRequests ra0 →
       env.imgResp url 1 = ImgResp.tooManyRequests ra1 →
       env.imgResp url 2 = ImgResp.tooManyRequests ra2 →
       download_image env url comic_slug (some ch) false 3 =
         (DLResult.exhausted,
          [Event.rateSleep (env.rateDelay url), Event.imgGet url, Event.sleep (ra0.getD 60),
           Event.imgGet url, Event.sleep (ra1.getD 60),
           Event.imgGet url, Event.sleep (ra2.getD 60)])) := by
  constructor
  · intro content u h0 h1 hu
    simp [download_image, downloadGo, h0, h1, downloadTarget, hu]
  · intro ra1 ra2 h0 h1 h2
    simp [download_image, downloadGo, h0, h1, h2]

/-- Environment for the C2 witness: a 429 without Retry-After, then a
success; the upload succeeds. -/
def envC2w : Env :=
  ⟨fun _ => false, fun _ _ => Except.error ("e"),
   fun _ a => if a = 0 then ImgResp.tooManyRequests none else ImgResp.ok ("x"),
   fun _ _ => some ("https://u"), fun _ => [], fun _ => 3⟩

/-- Witness for the amended C2 at a concrete environment. -/
theorem download_429_amended_witness :
    download_image envC2w ("http://i/5.jpg") ("s") (some ("2")) false 3 =
      (DLResult.success ("https://u"),
       [Event.rateSleep 3, Event.imgGet ("http://i/5.jpg"), Event.sleep 60,
        Event.imgGet ("http://i/5.jpg"),
        Event.upload (chapter_folder ("s") ("2")) (imageFilename ("http://i/5.jpg"))]) :=
  (download_429_amended envC2w ("http://i/5.jpg") ("s") ("2") none).1 ("x") ("https://u")
    (by decide) (by decide) (by decide)

/-- Environment refuting C3: the first chapter-page GET fails but any retry
would have succeeded; no asset folder exists. -/
def envRetryWouldWork : Env :=
  ⟨fun _ => false,
   fun _ a => if a = 0 then Except.error ("boom") else Except.ok ("html"),
   fun _ _ => ImgResp.ok ("x"), fun _ _ => some ("https://u"),
   fun _ => [("http://i/1.jpg")], fun _ => 2⟩

/-- Claim C3 counterexample: the chapter pipeline issues exactly one
chapter-page request and treats the chapter as failed (result []) even though
a second attempt would have succeeded — the chapter page is fetched by the
plain fetch_data, not by the retrying fetcher, so no exponential back-off
retry happens. -/
theorem chapter_page_fetch_no_retry_counterexample :
    envRetryWouldWork.httpGet ("k/chapter-2") 1 = Except.ok ("html")
  ∧ scrape_chapter_images envRetryWouldWork ("k/chapter-2") ("slug") =
      ([], [Event.folderCheck (chapter_folder ("slug") ("2")), Event.pageGet ("k/chapter-2")])
  ∧ (scrape_chapter_images envRetryWouldWork ("k/chapter-2") ("slug")).2.countP isPageGet = 1 := by
  refine ⟨by rfl, by decide, by decide⟩

/-- Claim C3 (amended): the chapter pipeline retrieves the chapter page HTML
with the plain single-attempt fetch_data; a chapter-page fetch that fails on
a transport or non-2xx error is not retried — the pipeline performs exactly
one page request and the chapter is immediately treated as failed, returning
[]. -/
theorem chapter_page_fetch_single_attempt (env : Env) (url comic_slug ch e : String)
    (hm : extractChapterNum url = some ch)
    (hf : folder_exists env (chapter_folder comic_slug ch) = false)
    (he : env.httpGet url 0 = Except.error e) :
    scrape_chapter_images env url comic_slug =
      ([], [Event.folderCheck (chapter_folder comic_slug ch), Event.pageGet url])
  ∧ (scrape_chapter_images env url comic_slug).2.countP isPageGet = 1 := by
  have h1 : scrape_chapter_images env url comic_slug =
      ([], [Event.folderCheck (chapter_folder comic_slug ch), Event.pageGet url]) := by
    simp [scrape_chapter_images, hm, hf, fetch_data, he]
  refine ⟨h1, ?_⟩
  rw [h1]
  simp [List.countP_cons, isPageGet]

/-- Environment for the C3 witness: every page fetch fails. -/
def envPageDown : Env :=
  ⟨fun _ => false, fun _ _ => Except.error ("boom"),
   fun _ _ => ImgResp.ok ("x"), fun _ _ => none, fun _ => [], fun _ => 2⟩

/-- Witness for the amended C3 at a concrete environment. -/
theorem chapter_page_fetch_single_attempt_witness :
    scrape_chapter_images envPageDown ("k/chapter-7") ("slug") =
      ([], [Event.folderCheck (chapter_folder ("slug") ("7")), Event.pageGet ("k/chapter-7")])
  ∧ (scrape_chapter_images envPageDown ("k/chapter-7") ("slug")).2.countP isPageGet = 1 :=
  chapter_page_fetch_single_attempt envPageDown ("k/chapter-7") ("slug") ("7") ("boom")
    (by decide) (by decide) (by rfl)

lemma find?_slug_append (comic_slug : String) (pre : List ComicRec) (c : ComicRec)
    (post : List ComicRec) (hpre : ∀ c2 ∈ pre, c2.slug ≠ comic_slug) (hc : c.slug = comic_slug) :
    (pre ++ c :: post).find? (fun x => x.slug = comic_slug) = some c := by
  induction pre with
  | nil => simp [hc]
  | cons a as ih =>
    have ha : a.slug ≠ comic_slug := hpre a (by simp)
    simp only [List.cons_append, List.find?_cons]
    have hb : (decide (a.slug = comic_slug)) = false := by simp [ha]
    rw [hb]
    exact ih fun c2 h2 => hpre c2 (by simp [h2])

lemma touchFirst_append (comic_slug : String) (now : Nat) (pre : List ComicRec)
    (c : ComicRec) (post : List ComicRec) (hpre : ∀ c2 ∈ pre, c2.slug ≠ comic_slug)
    (hc : c.slug = comic_slug) :
    touchFirst comic_slug now (pre ++ c :: post) =
      pre ++ ⟨c.title, c.author, c.type, c.status, c.release, c.genres, c.synopsis,
              c.rating, c.cover_image_url, c.slug, now⟩ :: post := by
  induction pre with
  | nil => simp [touchFirst, hc]
  | cons a as ih =>
    have ha : a.slug ≠ comic_slug := hpre a (by simp)
    have ih2 := ih fun c2 h2 => hpre c2 (by simp [h2])
    simp only [List.cons_append, touchFirst, ha, if_false, List.append_eq]
    rw [ih2]

/-- Claim C7: save_comic_metadata upserts by slug: with no row for the slug,
a new row carrying all supplied fields is appended; with an existing first
row for the slug, only its updated_on is set to now and every other field of
that row, and every other row, is unchanged. -/
theorem save_comic_metadata_upsert (meta : ComicMeta) (comic_slug : String) (now : Nat)
    (db : List ComicRec) :
    (db.find? (fun c => c.slug = comic_slug) = none →
       save_comic_metadata meta comic_slug now db =
         db ++ [⟨meta.title, meta.author, meta.type, meta.status, meta.release, meta.genres,
                 meta.synopsis, meta.rating, meta.cover_image_url, comic_slug, now⟩])
  ∧ (∀ pre c post, db = pre ++ c :: post → (∀ c2 ∈ pre, c2.slug ≠ comic_slug) →
       c.slug = comic_slug →
       save_comic_metadata meta comic_slug now db =
         pre ++ ⟨c.title, c.author, c.type, c.status, c.release, c.genres, c.synopsis,
                 c.rating, c.cover_image_url, c.slug, now⟩ :: post) := by
  constructor
  · intro hnone
    simp [save_comic_metadata, hnone, newComicRec]
  · intro pre c post hdb hpre hc
    subst hdb
    have hfind := find?_slug_append comic_slug pre c post hpre hc
    simp only [save_comic_metadata, hfind]
    exact touchFirst_append comic_slug now pre c post hpre hc

/-- Rows for the C7 witness. -/
def recA : ComicRec :=
  ⟨"A", "a", "manga", "ongoing", "2020", [], "syn", "9", "https://cover-a", "alpha", 10⟩

/-- Rows for the C7 witness. -/
def recB : ComicRec :=
  ⟨"B", "b", "manhwa", "completed", "2021", ["action"], "syn2", "8", "https://cover-b", "beta", 20⟩

/-- Metadata for the C7 witness. -/
def metaW : ComicMeta :=
  ⟨"B2", "b2", "manhua", "ongoing", "2022", ["drama"], "syn3", "7", "https://cover-b2"⟩

/-- Witness for C7: updating an existing slug refreshes only updated_on. -/
theorem save_comic_metadata_upsert_witness :
    save_comic_metadata metaW ("beta") 99 [recA, recB] =
      [recA, ⟨recB.title, recB.author, recB.type, recB.status, recB.release, recB.genres,
              recB.synopsis, recB.rating, recB.cover_image_url, recB.slug, 99⟩] :=
  (save_comic_metadata_upsert metaW ("beta") 99 [recA, recB]).2 [recA] recB []
    (by decide) (by decide) (by decide)

lemma downloadGo_uploads_le_one (env : Env) (url comic_slug : String)
    (chapter : Option String) (is_cover : Bool) :
    ∀ (r attempt : Nat),
      ((downloadGo env url comic_slug chapter is_cover attempt r).2.countP isUploadEvent) ≤ 1 := by
  intro r
  induction r with
  | zero => intro attempt; simp [downloadGo]
  | succ n ih =>
    intro attempt
    rcases h : env.imgResp url attempt with ra | msg | content
    · have := ih (attempt + 1)
      simp [downloadGo, h, List.countP_cons, isUploadEvent]
      omega
    · by_cases hn : n = 0
      · subst hn; simp [downloadGo, h, List.countP_cons, isUploadEvent]
      · have := ih (attempt + 1)
        simp [downloadGo, h, hn, List.countP_cons, isUploadEvent]
        omega
    · rcases ht : downloadTarget url comic_slug chapter is_cover with _ | ⟨folder, filename⟩
      · simp [downloadGo, h, ht, List.countP_cons, isUploadEvent]
      · rcases hu : upload_image env folder filename with _ | u
        · simp [downloadGo, h, ht, hu, List.countP_cons, isUploadEvent]
        · simp [downloadGo, h, ht, hu, List.countP_cons, isUploadEvent]

lemma handle_cover_uploads_le_one (env : Env) (cover_image_url comic_slug : String) :
    ((handle_cover_image env cover_image_url comic_slug).2.countP isUploadEvent) ≤ 1 := by
  by_cases hfe : file_exists env comic_slug ("cover") = true
  · simp [handle_cover_image, hfe, List.countP_cons, isUploadEvent]
  · have hb := downloadGo_uploads_le_one env cover_image_url comic_slug none true 3 0
    simp only [handle_cover_image, hfe, if_false, Bool.false_eq_true, download_image]
    rcases hd : (downloadGo env cover_image_url comic_slug none true 0 3).1 with u | _ | m | _ | _
    · by_cases hu : u = ""
      · simp [hd, hu, List.countP_cons, isUploadEvent]
        omega
      · simp [hd, hu, List.countP_cons, isUploadEvent]
        omega
    · simp [hd, List.countP_cons, isUploadEvent]
      omega
    · simp [hd, List.countP_cons, isUploadEvent]
      omega
    · simp [hd, List.countP_cons, isUploadEvent]
      omega
    · simp [hd, List.countP_cons, isUploadEvent]
      omega

/-- Claim C8: under the assumption that a first publish of the cover makes
the existence check for slug/cover report present, two invocations of
handle_cover_image with the same comic slug perform at most one upload, and
the second call short-circuits on file_exists, returning None after only the
existence check — no download and no upload. -/
theorem cover_publish_idempotent (env1 env2 : Env) (u1 u2 comic_slug : String)
    (h : 1 ≤ (handle_cover_image env1 u1 comic_slug).2.countP isUploadEvent →
         file_exists env2 comic_slug ("cover") = true) :
    ((handle_cover_image env1 u1 comic_slug).2.countP isUploadEvent
      + (handle_cover_image env2 u2 comic_slug).2.countP isUploadEvent ≤ 1)
  ∧ (file_exists env2 comic_slug ("cover") = true →
       handle_cover_image env2 u2 comic_slug =
         (CoverResult.ok none, [Event.fileCheck (comic_slug ++ "/cover")])
       ∧ (handle_cover_image env2 u2 comic_slug).2.countP isNetworkEvent = 0) := by
  have hshort : file_exists env2 comic_slug ("cover") = true →
      handle_cover_image env2 u2 comic_slug =
        (CoverResult.ok none, [Event.fileCheck (comic_slug ++ "/cover")]) := by
    intro hfe
    simp [handle_cover_image, hfe]
  constructor
  · by_cases hz : (handle_cover_image env1 u1 comic_slug).2.countP isUploadEvent = 0
    · have h2 := handle_cover_uploads_le_one env2 u2 comic_slug
      omega
    · have hfe := h (by omega)
      have h2 : (handle_cover_image env2 u2 comic_slug).2.countP isUploadEvent = 0 := by
        rw [hshort hfe]
        simp [List.countP_cons, isUploadEvent]
      have h1 := handle_cover_uploads_le_one env1 u1 comic_slug
      omega
  · intro hfe
    refine ⟨hshort hfe, ?_⟩
    rw [hshort hfe]
    simp [List.countP_cons, isNetworkEvent]

/-- Environment for the C8 witness, first call: cover absent, download and
upload succeed. -/
def envCoverFirst : Env :=
  ⟨fun _ => false, fun _ _ => Except.error ("e"),
   fun _ _ => ImgResp.ok ("img"), fun _ _ => some ("https://cover"), fun _ => [], fun _ => 2⟩

/-- Environment for the C8 witness, second call: the cover path now reports
present. -/
def envCoverSecond : Env :=
  ⟨fun _ => true, fun _ _ => Except.error ("e"),
   fun _ _ => ImgResp.clientError ("e"), fun _ _ => none, fun _ => [], fun _ => 2⟩

/-- Witness for C8 at concrete environments. -/
theorem cover_publish_idempotent_witness :
    ((handle_cover_image envCoverFirst ("http://c.jpg") ("slug")).2.countP isUploadEvent
      + (handle_cover_image envCoverSecond ("http://c.jpg") ("slug")).2.countP isUploadEvent ≤ 1)
  ∧ (file_exists envCoverSecond ("slug") ("cover") = true →
       handle_cover_image envCoverSecond ("http://c.jpg") ("slug") =
         (CoverResult.ok none, [Event.fileCheck ("slug" ++ "/cover")])
       ∧ (handle_cover_image envCoverSecond ("http://c.jpg") ("slug")).2.countP
           isNetworkEvent = 0) :=
  cover_publish_idempotent envCoverFirst envCoverSecond ("http://c.jpg") ("http://c.jpg")
    ("slug") (fun _ => by decide)

/-- Environment for the C9 scenario: no asset folder exists yet. -/
def envNoAssets : Env :=
  ⟨fun _ => false, fun _ _ => Except.error ("e"),
   fun _ _ => ImgResp.clientError ("e"), fun _ _ => none, fun _ => [], fun _ => 2⟩

/-- The chapter list of the C9 scenario: numbers 1.0, 2.0, 2.5, 3.0. -/
def demoChapters : List Chapter :=
  [⟨1, ("c1")⟩, ⟨2, ("c2")⟩, ⟨mkRat 5 2, ("c3")⟩, ⟨3, ("c4")⟩]

/-- Claim C9: the starting-chapter filter is inclusive: with no start value
every chapter is kept; with a start value s, over chapter lists with
non-negative numbers (all parsed chapter numbers are), the kept set is
exactly the chapters with number >= s; and in the scenario with chapters
[1.0, 2.0, 2.5, 3.0], start 2.0 and no pre-existing folders, the dispatch
set is [2.0, 2.5, 3.0]. -/
theorem start_filter_spec :
    (∀ chapters : List Chapter, startFilter none chapters = chapters)
  ∧ (∀ (chapters : List Chapter) (s : Rat), (∀ ch ∈ chapters, 0 ≤ ch.number) →
       startFilter (some s) chapters = chapters.filter fun ch => decide (s ≤ ch.number))
  ∧ chaptersToScrape envNoAssets ("alpha") (some 2) demoChapters =
      [⟨2, ("c2")⟩, ⟨mkRat 5 2, ("c3")⟩, ⟨3, ("c4")⟩] := by
  refine ⟨?_, ?_, by decide⟩
  · intro chapters
    simp [startFilter]
  · intro chapters s h
    unfold startFilter
    apply List.filter_congr
    intro ch hch
    by_cases hs : s = 0
    · subst hs
      simp [h ch hch]
    · simp [hs]

/-- Witness for C9: the start filter at start = 2.0 on the scenario list. -/
theorem start_filter_spec_witness :
    startFilter (some 2) demoChapters = [⟨2, ("c2")⟩, ⟨mkRat 5 2, ("c3")⟩, ⟨3, ("c4")⟩] :=
  (start_filter_spec.2.1 demoChapters 2 (by decide)).trans (by decide)

lemma schedStep_invariant {s1 s2 : Sched} (h : SchedStep s1 s2) :
    s1.avail + holders s1 = s2.avail + holders s2 := by
  cases h with
  | acquire pre post n a =>
    simp [holders, List.countP_append, List.countP_cons, isRunning]
    omega
  | net pre post n a =>
    simp [holders, List.countP_append, List.countP_cons, isRunning]
  | release pre post n a =>
    simp [holders, List.countP_append, List.countP_cons, isRunning]
    omega

lemma holders_initSched (nets : List Nat) : holders (initSched nets) = 0 := by
  unfold holders initSched
  induction nets with
  | nil => rfl
  | cons n ns ih => simp [List.countP_cons, isRunning, ih]

/-- Claim C10: under the admission gate of main (asyncio.Semaphore with
limit MAX_CONCURRENT_DOWNLOADS = 3), in every state reachable from the
initial dispatch by any interleaving of acquire / network / release steps,
the available slots plus the pipelines in flight equal the limit, so at no
point are more than 3 chapter pipelines in flight; a pipeline holds its slot
from before its first network operation until its completion or failure. -/
theorem semaphore_bound (nets : List Nat) (s : Sched)
    (h : SchedReach (initSched nets) s) :
    s.avail + holders s = MAX_CONCURRENT_DOWNLOADS
  ∧ holders s ≤ MAX_CONCURRENT_DOWNLOADS := by
  have hmain : s.avail + holders s = MAX_CONCURRENT_DOWNLOADS := by
    induction h with
    | refl =>
      rw [holders_initSched]
      simp [initSched]
    | tail hr hs ih =>
      rw [← schedStep_invariant hs]
      exact ih
  exact ⟨hmain, by omega⟩

/-- Witness for C10 at a concrete dispatch of three chapters. -/
theorem semaphore_bound_witness :
    (initSched [2, 3, 4]).avail + holders (initSched [2, 3, 4]) = MAX_CONCURRENT_DOWNLOADS
  ∧ holders (initSched [2, 3, 4]) ≤ MAX_CONCURRENT_DOWNLOADS :=
  semaphore_bound [2, 3, 4] (initSched [2, 3, 4]) SchedReach.refl

lemma takeDigits_digits : ∀ (cs : List Char), ∀ c ∈ (takeDigits cs).1, c.isDigit = true := by
  intro cs
  induction cs with
  | nil => intro c hc; simp [takeDigits] at hc
  | cons a as ih =>
    intro c hc
    by_cases h : a.isDigit
    · simp only [takeDigits, h, if_true] at hc
      rcases List.mem_cons.mp hc with rfl | hc2
      · exact h
      · exact ih c hc2
    · simp [takeDigits, h] at hc

lemma matchLitDigitsAt_digits (lit cs ds : List Char) (h : matchLitDigitsAt lit cs = some ds) :
    ds ≠ [] ∧ ∀ c ∈ ds, c.isDigit = true := by
  unfold matchLitDigitsAt at h
  rcases hs : stripLit lit cs with _ | rest
  · rw [hs] at h; exact absurd h (by simp)
  · rw [hs] at h
    by_cases he : (takeDigits rest).1.isEmpty
    · simp [he] at h
    · simp only [he, if_false, Bool.false_eq_true, Option.some.injEq] at h
      subst h
      refine ⟨?_, takeDigits_digits rest⟩
      intro hnil
      rw [hnil] at he
      exact he rfl

lemma searchLitDigits_digits (lit : List Char) :
    ∀ (cs ds : List Char), searchLitDigits lit cs = some ds →
      ds ≠ [] ∧ ∀ c ∈ ds, c.isDigit = true := by
  intro cs
  induction cs with
  | nil => intro ds h; simp [searchLitDigits] at h
  | cons a as ih =>
    intro ds h
    rcases hm : matchLitDigitsAt lit (a :: as) with _ | ds2
    · simp only [searchLitDigits, hm] at h
      exact ih ds h
    · simp only [searchLitDigits, hm, Option.some.injEq] at h
      subst h
      exact matchLitDigitsAt_digits lit (a :: as) ds2 hm

lemma extractChapterNum_digits (url s : String) (h : extractChapterNum url = some s) :
    s.data ≠ [] ∧ ∀ c ∈ s.data, c.isDigit = true := by
  unfold extractChapterNum at h
  rcases hm : searchLitDigits chapterUrlLit url.data with _ | ds
  · rw [hm] at h; exact absurd h (by simp)
  · rw [hm] at h
    have h2 : String.mk ds = s := by simpa using h
    subst h2
    exact searchLitDigits_digits chapterUrlLit url.data ds hm

lemma pyFloatStr_natCast (n : Nat) : pyFloatStr ((n : Nat) : Rat) = toString ((n : Nat) : Int) ++ (".0") := by
  unfold pyFloatStr
  simp [Rat.num_natCast, Rat.den_natCast]

/-- Claim C6: for a chapter whose URL yields digit group s under
re.search(r'chapter-(\d+)') and whose parsed number is the (integral) float
value of s, the folder key checked by main's already-downloaded filter
(float-formatted, e.g. slug/chapter-2.0) differs from the folder key used by
the pipeline's own skip check and uploads (URL digits, e.g. slug/chapter-2). -/
theorem folder_key_mismatch (slug url s : String) (q : Rat)
    (h1 : extractChapterNum url = some s)
    (h2 : q = ((natFromDigits s.data : Nat) : Rat)) :
    mainFolderKey slug q ≠ chapter_folder slug s := by
  have hdig := (extractChapterNum_digits url s h1).2
  intro heq
  have hd : (mainFolderKey slug q).data = (chapter_folder slug s).data := by rw [heq]
  unfold mainFolderKey chapter_folder at hd
  rw [String.data_append (slug ++ "/chapter-") (pyFloatStr q),
      String.data_append (slug ++ "/chapter-") s] at hd
  have hcancel : (pyFloatStr q).data = s.data := List.append_cancel_left hd
  rw [h2, pyFloatStr_natCast (natFromDigits s.data)] at hcancel
  have hdot : '.' ∈ (toString ((natFromDigits s.data : Nat) : Int) ++ (".0")).data := by
    rw [String.data_append]
    exact List.mem_append_right _ (by decide)
  rw [hcancel] at hdot
  exact absurd (hdig '.' hdot) (by decide)

/-- Witness for C6: slug/chapter-2.0 versus slug/chapter-2. -/
theorem folder_key_mismatch_witness :
    mainFolderKey ("s") ((natFromDigits (String.data ("2")) : Nat) : Rat) ≠
      chapter_folder ("s") ("2") :=
  folder_key_mismatch ("s") ("k/chapter-2") ("2") _ (by decide) rfl

lemma stripLit_append (ps cs : List Char) : stripLit ps (ps ++ cs) = some cs := by
  induction ps with
  | nil => rfl
  | cons p ps ih => simp [stripLit, ih]

lemma takeDigits_all (ds : List Char) (h : ∀ c ∈ ds, c.isDigit = true) :
    takeDigits ds = (ds, []) := by
  induction ds with
  | nil => rfl
  | cons a as ih =>
    have ha := h a (by simp)
    have ih2 := ih fun c hc => h c (by simp [hc])
    simp [takeDigits, ha, ih2]

lemma takeDigits_append_stop (ds : List Char) (x : Char) (rest : List Char)
    (h : ∀ c ∈ ds, c.isDigit = true) (hx : x.isDigit = false) :
    takeDigits (ds ++ x :: rest) = (ds, x :: rest) := by
  induction ds with
  | nil => simp [takeDigits, hx]
  | cons a as ih =>
    have ha := h a (by simp)
    have ih2 := ih fun c hc => h c (by simp [hc])
    simp [takeDigits, ha, ih2]

lemma matchChapterAt_int (istr : String) (h1 : istr.data ≠ [])
    (h2 : ∀ c ∈ istr.data, c.isDigit = true) :
    matchChapterAt (("Chapter ").data ++ istr.data) = some (istr.data, []) := by
  have hne : istr.data.isEmpty = false := by
    rcases hh : istr.data with _ | ⟨a, as⟩
    · exact absurd hh h1
    · rfl
  simp only [matchChapterAt, stripLit_append, takeDigits_all istr.data h2, hne, if_false,
    Bool.false_eq_true]

lemma matchChapterAt_frac (istr fstr : String) (h1 : istr.data ≠ [])
    (h2 : ∀ c ∈ istr.data, c.isDigit = true) (h3 : fstr.data ≠ [])
    (h4 : ∀ c ∈ fstr.data, c.isDigit = true) :
    matchChapterAt (("Chapter ").data ++ (istr.data ++ '.' :: fstr.data)) =
      some (istr.data, fstr.data) := by
  have hne : istr.data.isEmpty = false := by
    rcases hh : istr.data with _ | ⟨a, as⟩
    · exact absurd hh h1
    · rfl
  have hnef : fstr.data.isEmpty = false := by
    rcases hh : fstr.data with _ | ⟨a, as⟩
    · exact absurd hh h3
    · rfl
  have hdot : ('.' : Char).isDigit = false := by decide
  simp only [matchChapterAt, stripLit_append,
    takeDigits_append_stop istr.data '.' fstr.data h2 hdot, hne, if_false,
    Bool.false_eq_true, takeDigits_all fstr.data h4, hnef]

lemma searchChapter_of_match (cs : List Char) (r : List Char × List Char)
    (h : matchChapterAt cs = some r) : searchChapter cs = some r := by
  rcases cs with _ | ⟨a, as⟩
  · rw [show matchChapterAt ([] : List Char) = none from by decide] at h
    exact absurd h (by simp)
  · simp only [searchChapter, h]

lemma chapterTextData (istr fstr : String) :
    (("Chapter ") ++ istr ++ (".") ++ fstr).data =
      ("Chapter ").data ++ (istr.data ++ '.' :: fstr.data) := by
  have hd : (".").data = ['.'] := rfl
  simp [String.data_append, List.append_assoc, hd]

lemma chapterVal_eq_div (ip fp : List Char) :
    chapterVal ip fp =
      (natFromDigits ip : Rat) + (natFromDigits fp : Rat) / (10 : Rat) ^ fp.length := by
  unfold chapterVal
  rw [Rat.mkRat_eq_div]
  push_cast
  have h : ((10 : Rat) ^ fp.length) ≠ 0 := by positivity
  field_simp

lemma chapterNumber_int (istr : String) (h1 : istr.data ≠ [])
    (h2 : ∀ c ∈ istr.data, c.isDigit = true) :
    chapterNumber (("Chapter ") ++ istr) = some ((natFromDigits istr.data : Nat) : Rat) := by
  have hd : (("Chapter ") ++ istr).data = ("Chapter ").data ++ istr.data :=
    String.data_append _ _
  unfold chapterNumber
  rw [hd, searchChapter_of_match _ _ (matchChapterAt_int istr h1 h2)]
  have h0 : chapterVal istr.data [] = ((natFromDigits istr.data : Nat) : Rat) := by
    rw [chapterVal_eq_div]
    simp [show natFromDigits ([] : List Char) = 0 from rfl]
  simp [h0]

lemma chapterNumber_frac (istr fstr : String) (h1 : istr.data ≠ [])
    (h2 : ∀ c ∈ istr.data, c.isDigit = true) (h3 : fstr.data ≠ [])
    (h4 : ∀ c ∈ fstr.data, c.isDigit = true) :
    chapterNumber (("Chapter ") ++ istr ++ (".") ++ fstr) =
      some (chapterVal istr.data fstr.data) := by
  unfold chapterNumber
  rw [chapterTextData istr fstr,
    searchChapter_of_match _ _ (matchChapterAt_frac istr fstr h1 h2 h3 h4)]
  rfl

lemma get_chapter_list_sorted (links : List ChapterLink) :
    (get_chapter_list links).Pairwise fun a b => a.number ≤ b.number := by
  have htrans : ∀ (a b c : Chapter), leChap a b → leChap b c → leChap a c := by
    intro a b c hab hbc
    simp only [leChap, decide_eq_true_eq] at hab hbc ⊢
    exact le_trans hab hbc
  have htotal : ∀ (a b : Chapter), leChap a b || leChap b a := by
    intro a b
    simp only [leChap]
    rcases le_total a.number b.number with h | h
    · simp [h]
    · simp [h]
  have h := List.sorted_mergeSort htrans htotal
    (links.filterMap fun l => (chapterNumber l.text).map fun q => Chapter.mk q l.href)
  exact h.imp fun hab => by simpa [leChap] using hab

/-- Claim C5: for every link whose text matches `Chapter N` or `Chapter N.M`,
get_chapter_list parses exactly the value N, respectively N + M/10^k with k
fractional digits, and produces the corresponding chapter entry; the result
is sorted ascending by the parsed number; links whose text does not match
are omitted (every output entry comes from a matching link). -/
theorem get_chapter_list_spec (links : List ChapterLink) :
    ((get_chapter_list links).Pairwise fun a b => a.number ≤ b.number)
  ∧ (∀ c ∈ get_chapter_list links, ∃ link ∈ links,
       chapterNumber link.text = some c.number ∧ c.url = link.href)
  ∧ (∀ link ∈ links, ∀ q, chapterNumber link.text = some q →
       ∃ c ∈ get_chapter_list links, c.number = q ∧ c.url = link.href)
  ∧ (∀ istr : String, istr.data ≠ [] → (∀ c ∈ istr.data, c.isDigit = true) →
       chapterNumber (("Chapter ") ++ istr) = some ((natFromDigits istr.data : Nat) : Rat))
  ∧ (∀ istr fstr : String, istr.data ≠ [] → (∀ c ∈ istr.data, c.isDigit = true) →
       fstr.data ≠ [] → (∀ c ∈ fstr.data, c.isDigit = true) →
       chapterNumber (("Chapter ") ++ istr ++ (".") ++ fstr) =
         some ((natFromDigits istr.data : Rat)
           + (natFromDigits fstr.data : Rat) / (10 : Rat) ^ fstr.data.length)) := by
  have hperm := List.mergeSort_perm
    (links.filterMap fun l => (chapterNumber l.text).map fun q => Chapter.mk q l.href) leChap
  refine ⟨get_chapter_list_sorted links, ?_, ?_, ?_, ?_⟩
  · intro c hc
    have hc2 : c ∈ links.filterMap fun l => (chapterNumber l.text).map
        fun q => Chapter.mk q l.href := hperm.subset hc
    rcases List.mem_filterMap.mp hc2 with ⟨l, hl, hmap⟩
    rcases hn : chapterNumber l.text with _ | q
    · rw [hn] at hmap
      exact absurd hmap (by simp)
    · rw [hn] at hmap
      have hmap2 : Chapter.mk q l.href = c := by simpa using hmap
      refine ⟨l, hl, ?_, ?_⟩
      · rw [hn, ← hmap2]
      · rw [← hmap2]
  · intro link hl q hq
    refine ⟨⟨q, link.href⟩, ?_, rfl, rfl⟩
    apply (hperm.mem_iff).mpr
    apply List.mem_filterMap.mpr
    exact ⟨link, hl, by rw [hq]; rfl⟩
  · intro istr hne hdig
    exact chapterNumber_int istr hne hdig
  · intro istr fstr h1 h2 h3 h4
    rw [chapterNumber_frac istr fstr h1 h2 h3 h4, chapterVal_eq_div]

/-- Links for the C5 witness. -/
def demoLinks : List ChapterLink :=
  [⟨("Chapter 3"), ("u3")⟩, ⟨("Chapter 1.5"), ("u1")⟩, ⟨("junk"), ("ux")⟩,
   ⟨("Chapter 2"), ("u2")⟩]

/-- Witness for C5: sortedness on a concrete link list and the exact parse of
Chapter 12.5. -/
theorem get_chapter_list_spec_witness :
    ((get_chapter_list demoLinks).Pairwise fun a b => a.number ≤ b.number)
  ∧ chapterNumber (("Chapter ") ++ ("12") ++ (".") ++ ("5")) = some (mkRat 25 2) := by
  refine ⟨(get_chapter_list_spec demoLinks).1, ?_⟩
  have h := (get_chapter_list_spec demoLinks).2.2.2.2 ("12") ("5")
    (by decide) (by decide) (by decide) (by decide)
  rw [h, show natFromDigits (("12").data) = 12 from by decide,
    show natFromDigits (("5").data) = 5 from by decide,
    show (("5").data).length = 1 from by decide, Rat.mkRat_eq_div]
  norm_num

end ComicScraper
